import Mathlib

/-!
Shallow embedding of `src/main.rs` of the planck-scribe repository, together
with theorems settling the specification claims about its pitch-to-key
mapping, General MIDI program-name table, and MIDI file loading logic.

Rust `HashMap<u8, String>` values are embedded as lookup functions
`Nat → Option String` (`HMap`); `HashMap::insert` overrides the previous
binding of the inserted key and leaves all other keys unchanged, which is
exactly the behaviour of `HMap.insert` below.  The `panic!` in
`chromatic_planck_mapping` is embedded by an `Option` result (`none` is the
panic).  `fs::read` and `midly::Smf::parse` are external library calls; their
combined outcome is passed to `load_midi_file` as an `Except` argument.
-/

namespace PlanckScribe

/-- Embedding of `HashMap<u8, String>` as a lookup function.  Keys actually
inserted by the program are always at most 255 (`u8`). -/
abbrev HMap : Type := Nat → Option String

/-- Embedding of `HashMap::new()`. -/
def HMap.empty : HMap := fun _ => none

/-- Embedding of `HashMap::insert`: the new binding shadows any previous
binding of the same key. -/
def HMap.insert (m : HMap) (k : Nat) (v : String) : HMap :=
  fun q => if q = k then some v else m q

/-- Embedding of `type PlanckRows = Vec<Vec<String>>` (main.rs line 35). -/
abbrev PlanckRows : Type := List (List String)

/-- Embedding of `const MIDI_C_KEY: u8 = 60` (main.rs line 36). -/
def MIDI_C_KEY : Nat := 60

/-- Embedding of `default_planck_rows` (main.rs lines 71-87): the 4 rows of
12 key labels of the Planck keyboard. -/
def default_planck_rows : PlanckRows :=
  [ ["TAB", "Q", "W", "E", "R", "T", "Y", "U", "I", "O", "P", "BCK"],
    ["ESC", "A", "S", "D", "F", "G", "H", "J", "K", "L", ";", "\x27"],
    ["SHF", "Z", "X", "C", "V", "B", "N", "M", ",", ".", "/", "ETR"],
    ["", "CTRL", "ALT", "ORYX", "OS", "SHFDOWN", "SPACE", "SHFUP", "<-", "\\/", "/\\", "->"] ]

/-- The keyboard keys of a layout in row-major order, as traversed by both
nested `for row in rows.iter() / for key in row` loops of
`chromatic_planck_mapping`. -/
def planck_keys (rows : PlanckRows) : List String := rows.flatten

/-- Embedding of the first loop of `chromatic_planck_mapping` (main.rs lines
90-100): scan the keys in row-major order counting `base_index`, stopping at
the first key equal to `base_key`; `none` when no key matches (the
`found_base_key` flag stays false). -/
def find_base_index (base_key : String) (rows : PlanckRows) : Option Nat :=
  (planck_keys rows).findIdx? (fun key => key == base_key)

/-- Embedding of the second loop of `chromatic_planck_mapping` (main.rs lines
105-115): `index` counts the keys in row-major order, each key is bound to
MIDI key `MIDI_C_KEY + (index - base_index)` computed in `i32`, and the
binding is inserted only when that value fits in a `u8`
(`i32::try_into::<u8>` succeeds exactly on 0..=255). -/
def build_mapping (base_index : Nat) : Nat → List String → HMap → HMap
  | _, [], m => m
  | index, keyboard_key :: keys, m =>
    let midi_key_i32 : Int := (MIDI_C_KEY : Int) + ((index : Int) - (base_index : Int))
    let m2 := if 0 ≤ midi_key_i32 ∧ midi_key_i32 ≤ 255 then
        HMap.insert m midi_key_i32.toNat keyboard_key
      else m
    build_mapping base_index (index + 1) keys m2

/-- Embedding of `chromatic_planck_mapping` (main.rs lines 89-117).  The
source panics (`panic!("Expected base key to exist")`) when `base_key` occurs
nowhere in `rows`; that branch is embedded as `none`. -/
def chromatic_planck_mapping (base_key : String) (rows : PlanckRows) : Option HMap :=
  match find_base_index base_key rows with
  | none => none
  | some base_index => some (build_mapping base_index 0 (planck_keys rows) HMap.empty)

/-- Characterisation of a lookup in the map built by `build_mapping`: key `k`
is bound exactly when `k` is a `u8` value of the form
`60 + (i - base_index)` for some position `i` covered by `keys` (which start
at position `s`), and it is then bound to the label at that position. -/
theorem build_mapping_lookup (base_index : Nat) (keys : List String) :
    ∀ (s : Nat) (m : HMap) (k : Nat),
      build_mapping base_index s keys m k =
        if k ≤ 255 ∧ (s : Int) ≤ (k : Int) + base_index - 60 ∧
            (k : Int) + base_index - 60 < (s : Int) + keys.length then
          keys[k + base_index - 60 - s]?
        else m k := by
  induction keys with
  | nil =>
    intro s m k
    simp only [build_mapping, List.length_nil]
    rw [if_neg]
    rintro ⟨-, h2, h3⟩
    omega
  | cons keyboard_key keys ih =>
    intro s m k
    simp only [build_mapping, MIDI_C_KEY, List.length_cons]
    rw [ih (s + 1)]
    split_ifs with h1 h2 h3 h4 h5
    · -- `k` is bound by a position covered by `keys`
      rw [show k + base_index - 60 - s = (k + base_index - 60 - (s + 1)) + 1 from by omega,
        List.getElem?_cons_succ]
    · exact (h2 ⟨h1.1, by omega, by omega⟩).elim
    · -- the insertion for position `s` happened; is its MIDI key exactly `k`?
      by_cases hcur : (k : Int) + base_index - 60 = (s : Int)
      · rw [show k + base_index - 60 - s = 0 from by omega, List.getElem?_cons_zero]
        simp only [HMap.insert]
        rw [if_pos (by omega)]
      · exact (h1 ⟨h4.1, by omega, by omega⟩).elim
    · -- the insertion for position `s` happened but binds a key other than `k`
      simp only [HMap.insert]
      rw [if_neg]
      intro hkt
      exact h4 ⟨by omega, by omega, by omega⟩
    · -- `k` matches no position, yet the overall condition claims it does
      by_cases hcur : (k : Int) + base_index - 60 = (s : Int)
      · exact (h3 ⟨by omega, by omega⟩).elim
      · exact (h1 ⟨h5.1, by omega, by omega⟩).elim
    · rfl

/-- When the first loop finds the base key at flattened position `b`, then
`b` is a valid row-major position and the key there equals `base_key`. -/
theorem find_base_index_spec (base_key : String) (rows : PlanckRows) (b : Nat)
    (h : find_base_index base_key rows = some b) :
    b < (planck_keys rows).length ∧ (planck_keys rows)[b]? = some base_key := by
  unfold find_base_index at h
  rw [List.findIdx?_eq_some_iff_getElem] at h
  obtain ⟨hb, hp, -⟩ := h
  refine ⟨hb, ?_⟩
  rw [List.getElem?_eq_some]
  exact ⟨hb, by simpa using hp⟩

/-- When the base key occurs somewhere in the layout, the first loop finds
some flattened position for it (and hence the function does not panic). -/
theorem find_base_index_isSome (base_key : String) (rows : PlanckRows)
    (h : base_key ∈ planck_keys rows) :
    ∃ b, find_base_index base_key rows = some b := by
  have hs : ((planck_keys rows).findIdx? (fun key => key == base_key)).isSome = true := by
    rw [List.findIdx?_isSome, List.any_eq_true]
    exact ⟨base_key, h, by simp⟩
  exact Option.isSome_iff_exists.mp hs

/-- Claim C1 (counterexample to the claim as stated): for the single-row
layout whose 62 labels are 61 copies of "X" followed by the base key "B",
the first occurrence of the base key has flattened index 61, the key label
at row-major position 0 is "X", yet no MIDI key is assigned to position 0:
the claimed pitch 60 + (0 - 61) = -1 does not fit in a `u8`, so
`chromatic_planck_mapping` inserts no binding for that position. -/
theorem C1_counterexample :
    find_base_index "B" [List.replicate 61 "X" ++ ["B"]] = some 61 ∧
    (planck_keys [List.replicate 61 "X" ++ ["B"]])[0]? = some "X" ∧
    ¬ ∃ k : Nat, (k : Int) = 60 + ((0 : Int) - 61) ∧
        ∃ m, chromatic_planck_mapping "B" [List.replicate 61 "X" ++ ["B"]] = some m ∧
          m k = some "X" := by
  refine ⟨by decide, by decide, ?_⟩
  rintro ⟨k, hk, -⟩
  omega

/-- Claim C1 (amended): for every rows layout and base_key that occurs in
rows, with `b` the row-major index of the first occurrence of base_key, the
key label at row-major position `i` is assigned the MIDI pitch
`60 + (i - b)` provided that value fits in a `u8` (it is nonnegative, that
is `b ≤ 60 + i`, and at most 255); positions whose value falls outside this
range are omitted from the mapping. -/
theorem C1_linear_assignment (rows : PlanckRows) (base_key : String) (b : Nat)
    (hb : find_base_index base_key rows = some b)
    (i : Nat) (hi : i < (planck_keys rows).length)
    (hlow : b ≤ 60 + i) (hhigh : 60 + i - b ≤ 255) :
    ∃ m, chromatic_planck_mapping base_key rows = some m ∧
      m (60 + i - b) = (planck_keys rows)[i]? := by
  refine ⟨build_mapping b 0 (planck_keys rows) HMap.empty, ?_, ?_⟩
  · unfold chromatic_planck_mapping
    rw [hb]
  · rw [build_mapping_lookup]
    rw [if_pos ⟨hhigh, by omega, by omega⟩]
    rw [show 60 + i - b + b - 60 - 0 = i from by omega]

/-- Witness for C1_linear_assignment: in the default layout, "ESC" sits at
flattened index 12, and the key label at row-major position 0 ("TAB") is
assigned MIDI pitch 48. -/
theorem C1_linear_assignment_witness :
    find_base_index "ESC" default_planck_rows = some 12 ∧
    0 < (planck_keys default_planck_rows).length ∧
    12 ≤ 60 + 0 ∧ 60 + 0 - 12 ≤ 255 ∧
    ∃ m, chromatic_planck_mapping "ESC" default_planck_rows = some m ∧
      m (60 + 0 - 12) = (planck_keys default_planck_rows)[0]? :=
  ⟨by decide, by decide, by decide, by decide,
    C1_linear_assignment default_planck_rows "ESC" 12 (by decide) 0 (by decide)
      (by decide) (by decide)⟩

/-- Claim C2 (confirmed): for every rows layout and base_key that occurs in
rows, the mapping sends MIDI key 60 (`MIDI_C_KEY`, middle C) to the label of
the base key. -/
theorem C2_base_key_maps_to_middle_c (rows : PlanckRows) (base_key : String)
    (h : base_key ∈ planck_keys rows) :
    ∃ m, chromatic_planck_mapping base_key rows = some m ∧
      m MIDI_C_KEY = some base_key := by
  obtain ⟨b, hb⟩ := find_base_index_isSome base_key rows h
  obtain ⟨hblt, hbget⟩ := find_base_index_spec base_key rows b hb
  refine ⟨build_mapping b 0 (planck_keys rows) HMap.empty, ?_, ?_⟩
  · unfold chromatic_planck_mapping
    rw [hb]
  · rw [build_mapping_lookup]
    simp only [MIDI_C_KEY]
    rw [if_pos ⟨by omega, by omega, by omega⟩]
    rw [show 60 + b - 60 - 0 = b from by omega]
    exact hbget

/-- Witness for C2_base_key_maps_to_middle_c at the default layout and base
key "ESC". -/
theorem C2_base_key_maps_to_middle_c_witness :
    "ESC" ∈ planck_keys default_planck_rows ∧
    ∃ m, chromatic_planck_mapping "ESC" default_planck_rows = some m ∧
      m MIDI_C_KEY = some "ESC" :=
  ⟨by decide, C2_base_key_maps_to_middle_c default_planck_rows "ESC" (by decide)⟩

/-- Claim C5 (counterexample to the claim as stated): the function is not
total on all inputs; when the base key occurs nowhere in the rows it reaches
the `panic!("Expected base key to exist")` branch (embedded as `none`). -/
theorem C5_counterexample : chromatic_planck_mapping "Q" [["A"]] = none := rfl

/-- Claim C5 (amended): for every base_key that occurs somewhere in rows,
`chromatic_planck_mapping` returns a mapping without panicking.  Determinism
(equal inputs give equal mappings) holds definitionally: the embedding is a
pure function of `base_key` and `rows`. -/
theorem C5_total_on_present_base (base_key : String) (rows : PlanckRows)
    (h : base_key ∈ planck_keys rows) :
    ∃ m, chromatic_planck_mapping base_key rows = some m := by
  obtain ⟨b, hb⟩ := find_base_index_isSome base_key rows h
  refine ⟨build_mapping b 0 (planck_keys rows) HMap.empty, ?_⟩
  unfold chromatic_planck_mapping
  rw [hb]

/-- Witness for C5_total_on_present_base at the default layout and base key
"ESC". -/
theorem C5_total_on_present_base_witness :
    "ESC" ∈ planck_keys default_planck_rows ∧
    ∃ m, chromatic_planck_mapping "ESC" default_planck_rows = some m :=
  ⟨by decide, C5_total_on_present_base "ESC" default_planck_rows (by decide)⟩

/-- The `mappings` array of `program_to_string` (main.rs lines 120-265): the
129 pairs of General MIDI program number and instrument name, in source
order. -/
def program_mappings : List (Nat × String) :=
  [ (0, "Piano"),
    (1, "Acoustic Grand Piano or Piano 1"),
    (2, "Bright Acoustic Piano or Piano 2"),
    (3, "Electric Grand Piano or Piano 3 (usually modeled after Yamaha CP70)"),
    (4, "Honky-tonk Piano"),
    (5, "Electric Piano 1 (usually a Rhodes piano)"),
    (6, "Electric Piano 2 (usually an FM piano patch)"),
    (7, "Harpsichord"),
    (8, "Clavinet"),
    (9, "Celesta"),
    (10, "Glockenspiel"),
    (11, "Music Box"),
    (12, "Vibraphone"),
    (13, "Marimba"),
    (14, "Xylophone"),
    (15, "Tubular Bells"),
    (16, "Dulcimer or Santoor"),
    (17, "Drawbar Organ or Organ 1"),
    (18, "Percussive Organ or Organ 2"),
    (19, "Rock Organ or Organ 3"),
    (20, "Church Organ"),
    (21, "Reed Organ"),
    (22, "Accordion"),
    (23, "Harmonica"),
    (24, "Bandoneon or Tango Accordion"),
    (25, "Acoustic Guitar (nylon)"),
    (26, "Acoustic Guitar (steel)"),
    (27, "Electric Guitar (jazz)"),
    (28, "Electric Guitar (clean, usually resembling a Fender Stratocaster ran through a Roland Jazz Chorus amp)"),
    (29, "Electric Guitar (muted)"),
    (30, "Electric Guitar (overdriven)"),
    (31, "Electric Guitar (distortion)"),
    (32, "Electric Guitar (harmonics)"),
    (33, "Acoustic Bass"),
    (34, "Electric Bass (finger)"),
    (35, "Electric Bass (picked)"),
    (36, "Electric Bass (fretless)"),
    (37, "Slap Bass 1"),
    (38, "Slap Bass 2"),
    (39, "Synth Bass 1"),
    (40, "Synth Bass 2"),
    (41, "Violin"),
    (42, "Viola"),
    (43, "Cello"),
    (44, "Contrabass"),
    (45, "Tremolo Strings"),
    (46, "Pizzicato Strings"),
    (47, "Orchestral Harp"),
    (48, "Timpani"),
    (49, "String Ensemble 1"),
    (50, "String Ensemble 2"),
    (51, "Synth Strings 1"),
    (52, "Synth Strings 2"),
    (53, "Choir Aahs"),
    (54, "Voice Oohs (or Doos)"),
    (55, "Synth Voice or Synth Choir"),
    (56, "Orchestra Hit"),
    (57, "Trumpet"),
    (58, "Trombone"),
    (59, "Tuba"),
    (60, "Muted Trumpet"),
    (61, "French Horn"),
    (62, "Brass Section"),
    (63, "Synth Brass 1"),
    (64, "Synth Brass 2"),
    (65, "Soprano Sax"),
    (66, "Alto Sax"),
    (67, "Tenor Sax"),
    (68, "Baritone Sax"),
    (69, "Oboe"),
    (70, "English Horn"),
    (71, "Bassoon"),
    (72, "Clarinet"),
    (73, "Piccolo"),
    (74, "Flute"),
    (75, "Recorder"),
    (76, "Pan Flute"),
    (77, "Blown bottle"),
    (78, "Shakuhachi"),
    (79, "Whistle"),
    (80, "Ocarina"),
    (81, "Lead 1 (square, often chorused)"),
    (82, "Lead 2 (sawtooth, often chorused)"),
    (83, "Lead 3 (triangle, or calliope, usually resembling a woodwind)"),
    (84, "Lead 4 (sine, or chiff)"),
    (85, "Lead 5 (charang, a guitar-like lead)"),
    (86, "Lead 6 (voice)"),
    (87, "Lead 7 (fifths)"),
    (88, "Lead 8 (bass and lead or solo lead)"),
    (89, "Pad 1 (new age, pad stacked with a bell, often derived from \"Fantasia\" patch from Roland D-50)"),
    (90, "Pad 2 (warm, a mellower saw pad)"),
    (91, "Pad 3 (polysynth or poly, a saw-like percussive pad resembling an early 1980s polyphonic synthesizer)"),
    (92, "Pad 4 (choir, similar to \"synth voice\")"),
    (93, "Pad 5 (bowed glass or bowed, a sound resembling a glass harmonica)"),
    (94, "Pad 6 (metallic, often created from a grand piano sample played with the attack removed)"),
    (95, "Pad 7 (halo, choir-like pad)"),
    (96, "Pad 8 (sweep, pad with a pronounced \"wah\" filter effect)"),
    (97, "FX 1 (rain, a bright pluck with echoing pulses)"),
    (98, "FX 2 (soundtrack, a bright perfect fifth pad)"),
    (99, "FX 3 (crystal, a synthesized bell sound)"),
    (100, "FX 4 (atmosphere, usually a classical guitar-like sound)"),
    (101, "FX 5 (brightness, a fast-attack stacked pad with choir or bell)"),
    (102, "FX 6 (goblins, a slow-attack pad with chirping or murmuring sounds)"),
    (103, "FX 7 (echoes or echo drops, similar to \"rain\")"),
    (104, "FX 8 (sci-fi or star theme, usually an electric guitar-like pad)"),
    (105, "Sitar"),
    (106, "Banjo"),
    (107, "Shamisen"),
    (108, "Koto"),
    (109, "Kalimba"),
    (110, "Bag pipe"),
    (111, "Fiddle"),
    (112, "Shanai"),
    (113, "Tinkle Bell"),
    (114, "AgogÃ´ or cowbell"),
    (115, "Steel Drums"),
    (116, "Woodblock"),
    (117, "Taiko Drum"),
    (118, "Melodic Tom or 808 Toms"),
    (119, "Synth Drum"),
    (120, "Reverse Cymbal"),
    (121, "Guitar Fret Noise"),
    (122, "Breath Noise"),
    (123, "Seashore"),
    (124, "Bird Tweet"),
    (125, "Telephone Ring"),
    (126, "Helicopter"),
    (127, "Applause"),
    (128, "Gunshot") ]

/-- Embedding of `program_to_string` (main.rs lines 119-270): collect the
`mappings` array into a `HashMap<u8, String>`. -/
def program_to_string : HMap :=
  program_mappings.foldl (fun m x => HMap.insert m x.1 x.2) HMap.empty

set_option maxRecDepth 16384 in
/-- Claim C6 (confirmed): every 7-bit General MIDI program number 0..=127 is
in the domain of the table built by `program_to_string`, so the lookup done
for a program-change event in `load_midi_file` never fails. -/
theorem C6_program_lookup_total (p : Nat) (hp : p ≤ 127) :
    ∃ s, program_to_string p = some s := by
  have h : ∀ q, q < 128 → (program_to_string q).isSome = true := by decide
  exact Option.isSome_iff_exists.mp (h p (by omega))

/-- Witness for C6_program_lookup_total at program number 0. -/
theorem C6_program_lookup_total_witness :
    0 ≤ 127 ∧ ∃ s, program_to_string 0 = some s :=
  ⟨by decide, C6_program_lookup_total 0 (by decide)⟩

/-- Embedding of the `midly::MidiMessage` cases the program inspects; the
payloads `key`, `vel` and `program` are 7-bit values (`u7`).  Every message
other than NoteOn and ProgramChange falls into `other` (the `_ => ()` arm of
main.rs line 381). -/
inductive MidiMessage : Type
  | noteOn (key : Nat) (vel : Nat)
  | programChange (program : Nat)
  | other
deriving DecidableEq

/-- Embedding of `midly::TrackEventKind`: a channel MIDI message, or any of
the other event kinds (meta, sysex, escape), which the program ignores. -/
inductive TrackEventKind : Type
  | midi (channel : Nat) (message : MidiMessage)
  | other
deriving DecidableEq

/-- Embedding of `midly::TrackEvent`; the program only reads `kind`. -/
structure TrackEvent : Type where
  kind : TrackEventKind
deriving DecidableEq

/-- A parsed MIDI track: the list of its events in file order. -/
abbrev Track : Type := List TrackEvent

/-- Embedding of the parsed `midly::Smf`: its `tracks` list in file order. -/
abbrev Smf : Type := List Track

/-- Embedding of `MidiKeyPair` (main.rs lines 66-69). -/
structure MidiKeyPair : Type where
  midi_key : Nat
  keyboard_key : Option String
deriving DecidableEq

/-- Embedding of `MidiKeyTrack` (main.rs lines 38-41). -/
structure MidiKeyTrack : Type where
  name : String
  midi_key_pairs : List MidiKeyPair
deriving DecidableEq

/-- Embedding of `MidiKeyTrack::new` (main.rs lines 44-49). -/
def MidiKeyTrack.new : MidiKeyTrack := { name := "", midi_key_pairs := [] }

/-- Embedding of the `MyApp` state (main.rs lines 28-33). -/
structure MyApp : Type where
  picked_midi_path : Option String
  midi_key_tracks : List MidiKeyTrack
  key_to_keyboard_mapping : HMap
  program_to_string_mapping : HMap

/-- Embedding of `LoadMidiFileError` (main.rs lines 393-401); the payloads
of the IO and midly errors are irrelevant to the claims. -/
inductive LoadMidiFileError : Type
  | IOError
  | MidlyError
  | NoTrackError
deriving DecidableEq

/-- The modulus of the `u32` counter `channel_num`. -/
def U32_MOD : Nat := 2 ^ 32

/-- Embedding of the body of the `for note in track` loop of
`load_midi_file` (main.rs lines 356-385): a NoteOn event appends a
`MidiKeyPair` whose `keyboard_key` is the lookup of the key number in
`key_to_keyboard_mapping` (`get` followed by `and_then Some` is exactly the
`Option`-valued lookup); a ProgramChange event renames the track when the
program number is in `program_to_string_mapping`; and every event, of any
kind, increments the `u32` counter `channel_num`. -/
def process_event (kmap pmap : HMap) (st : MidiKeyTrack × Nat) (note : TrackEvent) :
    MidiKeyTrack × Nat :=
  let t2 :=
    match note.kind with
    | TrackEventKind.midi _ message =>
      match message with
      | MidiMessage.noteOn key _ =>
        { st.1 with midi_key_pairs :=
            st.1.midi_key_pairs ++ [{ midi_key := key, keyboard_key := kmap key }] }
      | MidiMessage.programChange program =>
        match pmap program with
        | some name => { st.1 with name := name }
        | none => st.1
      | MidiMessage.other => st.1
    | TrackEventKind.other => st.1
  (t2, (st.2 + 1) % U32_MOD)

/-- Embedding of the `for track in parsed_midi.tracks` loop of
`load_midi_file` (main.rs lines 353-387): each track starts from
`MidiKeyTrack::new()` renamed to `Channel {channel_num}`, is folded over its
events, and is pushed onto `midi_key_tracks`. -/
def process_tracks (kmap pmap : HMap) : Nat → List Track → List MidiKeyTrack
  | _, [] => []
  | channel_num, track :: tracks =>
    let st := track.foldl (process_event kmap pmap)
      ({ MidiKeyTrack.new with name := "Channel " ++ toString channel_num }, channel_num)
    st.1 :: process_tracks kmap pmap st.2 tracks

/-- Embedding of `load_midi_file` (main.rs lines 346-390).  The function
first records the picked path, then reads and parses the file; the combined
outcome of the external calls `fs::read` and `midly::Smf::parse` is the
`parsed` argument, and the two `?` operators early-return the converted
error.  On success `midi_key_tracks` is cleared and rebuilt by the track
loop, with the `u32` counter `channel_num` starting at 1. -/
def load_midi_file (app : MyApp) (path : String)
    (parsed : Except LoadMidiFileError Smf) :
    MyApp × Except LoadMidiFileError Unit :=
  let app1 := { app with picked_midi_path := some path }
  match parsed with
  | Except.error e => (app1, Except.error e)
  | Except.ok smf =>
    ({ app1 with midi_key_tracks :=
        process_tracks app1.key_to_keyboard_mapping app1.program_to_string_mapping 1 smf },
      Except.ok ())

/-- Embedding of `impl Default for MyApp` (main.rs lines 272-281): `none`
would mean the `panic!` inside `chromatic_planck_mapping` was reached while
building the default state. -/
def MyApp.default : Option MyApp :=
  (chromatic_planck_mapping "ESC" default_planck_rows).map fun m =>
    { program_to_string_mapping := program_to_string,
      picked_midi_path := none,
      midi_key_tracks := [],
      key_to_keyboard_mapping := m }

/-- Specification helper: the key numbers of the NoteOn events of a track,
in track order. -/
def note_on_keys (track : Track) : List Nat :=
  track.filterMap fun note =>
    match note.kind with
    | TrackEventKind.midi _ (MidiMessage.noteOn key _) => some key
    | _ => none

/-- Specification helper: the `MidiKeyPair` recorded for each NoteOn event
of a track, in track order. -/
def note_on_pairs (kmap : HMap) (track : Track) : List MidiKeyPair :=
  track.filterMap fun note =>
    match note.kind with
    | TrackEventKind.midi _ (MidiMessage.noteOn key _) =>
      some { midi_key := key, keyboard_key := kmap key }
    | _ => none

/-- Specification helper: the instrument names of the ProgramChange events
of a track whose program number is in the table, in track order. -/
def known_program_names (pmap : HMap) (track : Track) : List String :=
  track.filterMap fun note =>
    match note.kind with
    | TrackEventKind.midi _ (MidiMessage.programChange program) => pmap program
    | _ => none

/-- The last element of a list, or the default when the list is empty. -/
def lastD (l : List String) (d : String) : String := l.foldl (fun _ x => x) d

/-- The total number of track events, of any kind, in the tracks preceding
track `t` of the file. -/
def prev_events (smf : Smf) (t : Nat) : Nat := ((smf.take t).map List.length).sum

/-- Folding a track over `process_event` appends exactly the recorded
NoteOn pairs of the track. -/
theorem foldl_process_event_pairs (kmap pmap : HMap) (track : Track) :
    ∀ st : MidiKeyTrack × Nat,
      (track.foldl (process_event kmap pmap) st).1.midi_key_pairs =
        st.1.midi_key_pairs ++ note_on_pairs kmap track := by
  induction track with
  | nil =>
    intro st
    simp [note_on_pairs]
  | cons note track ih =>
    intro st
    rw [List.foldl_cons, ih]
    obtain ⟨kind⟩ := note
    rcases kind with ⟨ch, message⟩ | _
    · rcases message with ⟨key, vel⟩ | ⟨program⟩ | _
      · simp [process_event, note_on_pairs]
      · simp only [note_on_pairs, List.filterMap_cons]
        cases h : pmap program <;> simp [process_event, h]
      · simp [process_event, note_on_pairs]
    · simp [process_event, note_on_pairs]

/-- Folding a track over `process_event` leaves the name of the starting
state unless a ProgramChange with a known program number occurs, in which
case the last such event wins. -/
theorem foldl_process_event_name (kmap pmap : HMap) (track : Track) :
    ∀ st : MidiKeyTrack × Nat,
      (track.foldl (process_event kmap pmap) st).1.name =
        lastD (known_program_names pmap track) st.1.name := by
  induction track with
  | nil =>
    intro st
    simp [known_program_names, lastD]
  | cons note track ih =>
    intro st
    rw [List.foldl_cons, ih]
    obtain ⟨kind⟩ := note
    rcases kind with ⟨ch, message⟩ | _
    · rcases message with ⟨key, vel⟩ | ⟨program⟩ | _
      · simp [process_event, known_program_names]
      · simp only [known_program_names, List.filterMap_cons]
        cases h : pmap program <;> simp [process_event, h, lastD]
      · simp [process_event, known_program_names]
    · simp [process_event, known_program_names]

/-- The counter component of `process_event` is one more than before,
modulo `2^32`, whatever the event. -/
theorem process_event_snd (kmap pmap : HMap) (st : MidiKeyTrack × Nat)
    (note : TrackEvent) :
    (process_event kmap pmap st note).2 = (st.2 + 1) % U32_MOD := rfl

/-- Folding a track over `process_event` advances the `u32` counter by the
number of events in the track, modulo `2^32`. -/
theorem foldl_process_event_channel (kmap pmap : HMap) (track : Track) :
    ∀ st : MidiKeyTrack × Nat, st.2 < U32_MOD →
      (track.foldl (process_event kmap pmap) st).2 = (st.2 + track.length) % U32_MOD ∧
        (track.foldl (process_event kmap pmap) st).2 < U32_MOD := by
  induction track with
  | nil =>
    intro st hst
    simp [Nat.mod_eq_of_lt hst, hst]
  | cons note track ih =>
    intro st hst
    rw [List.foldl_cons]
    have hm : (process_event kmap pmap st note).2 = (st.2 + 1) % U32_MOD :=
      process_event_snd kmap pmap st note
    have hlt : (process_event kmap pmap st note).2 < U32_MOD := by
      rw [hm]
      exact Nat.mod_lt _ (by norm_num [U32_MOD])
    obtain ⟨h1, h2⟩ := ih (process_event kmap pmap st note) hlt
    refine ⟨?_, h2⟩
    rw [h1, hm, Nat.mod_add_mod, List.length_cons]
    congr 1
    omega

/-- `process_tracks` produces one `MidiKeyTrack` per parsed track. -/
theorem process_tracks_length (kmap pmap : HMap) :
    ∀ (smf : List Track) (channel_num : Nat),
      (process_tracks kmap pmap channel_num smf).length = smf.length := by
  intro smf
  induction smf with
  | nil =>
    intro channel_num
    rfl
  | cons track smf ih =>
    intro channel_num
    simp [process_tracks, ih]

/-- The recorded pairs at each position of the output of `process_tracks`
are exactly the NoteOn pairs of the parsed track at the same position. -/
theorem process_tracks_pairs (kmap pmap : HMap) :
    ∀ (smf : List Track) (channel_num t : Nat),
      ((process_tracks kmap pmap channel_num smf)[t]?).map MidiKeyTrack.midi_key_pairs =
        (smf[t]?).map (note_on_pairs kmap) := by
  intro smf
  induction smf with
  | nil =>
    intro channel_num t
    rfl
  | cons track smf ih =>
    intro channel_num t
    cases t with
    | zero =>
      have hp := foldl_process_event_pairs kmap pmap track
        ({ MidiKeyTrack.new with name := "Channel " ++ toString channel_num }, channel_num)
      simp only [MidiKeyTrack.new, List.nil_append] at hp
      simp [process_tracks, MidiKeyTrack.new, hp]
    | succ t =>
      simp only [process_tracks, List.getElem?_cons_succ]
      exact ih _ t

/-- The name at each position of the output of `process_tracks`: the last
known instrument name of the track, defaulting to `Channel` followed by the
counter value at the start of the track, which is the initial counter plus
the total event count of all preceding tracks (modulo `2^32`). -/
theorem process_tracks_name (kmap pmap : HMap) :
    ∀ (smf : Smf) (channel_num : Nat), channel_num < U32_MOD →
      ∀ (t : Nat) (track : Track), smf[t]? = some track →
        ∃ mt, (process_tracks kmap pmap channel_num smf)[t]? = some mt ∧
          mt.name = lastD (known_program_names pmap track)
            ("Channel " ++ toString ((channel_num + prev_events smf t) % U32_MOD)) := by
  intro smf
  induction smf with
  | nil =>
    intro channel_num hcn t track h
    simp at h
  | cons tr smf ih =>
    intro channel_num hcn t track h
    cases t with
    | zero =>
      rw [List.getElem?_cons_zero, Option.some.injEq] at h
      subst h
      refine ⟨(List.foldl (process_event kmap pmap)
        ({ MidiKeyTrack.new with name := "Channel " ++ toString channel_num }, channel_num)
        tr).1, ?_, ?_⟩
      · simp [process_tracks]
      · rw [foldl_process_event_name]
        simp only [prev_events, List.take_zero, List.map_nil, List.sum_nil, Nat.add_zero,
          Nat.mod_eq_of_lt hcn]
    | succ t =>
      rw [List.getElem?_cons_succ] at h
      simp only [process_tracks, List.getElem?_cons_succ]
      have hch := foldl_process_event_channel kmap pmap tr
        ({ MidiKeyTrack.new with name := "Channel " ++ toString channel_num }, channel_num)
        hcn
      obtain ⟨hval, hlt⟩ := hch
      obtain ⟨mt, hmt, hname⟩ := ih _ hlt t track h
      refine ⟨mt, ?_, ?_⟩
      · exact hmt
      · rw [hname, hval, Nat.mod_add_mod]
        have harg : channel_num + tr.length + prev_events smf t =
            channel_num + prev_events (tr :: smf) (t + 1) := by
          simp only [prev_events, List.take_succ_cons, List.map_cons, List.sum_cons]
          omega
        rw [harg]

/-- On a successfully parsed file, `midi_key_tracks` becomes exactly
`process_tracks` of the parsed track list. -/
theorem load_midi_file_ok_tracks (app : MyApp) (path : String) (smf : Smf) :
    (load_midi_file app path (Except.ok smf)).1.midi_key_tracks =
      process_tracks app.key_to_keyboard_mapping app.program_to_string_mapping 1 smf := rfl

/-- Mapping `midi_key` over the recorded NoteOn pairs recovers the NoteOn
key numbers of the track. -/
theorem note_on_pairs_map_key (kmap : HMap) (track : Track) :
    (note_on_pairs kmap track).map MidiKeyPair.midi_key = note_on_keys track := by
  rw [note_on_pairs, note_on_keys, List.map_filterMap]
  congr 1
  funext note
  obtain ⟨kind⟩ := note
  rcases kind with ⟨ch, message⟩ | _
  · rcases message with ⟨key, vel⟩ | ⟨program⟩ | _ <;> rfl
  · rfl

/-- Every recorded NoteOn pair stores the lookup of its own key number. -/
theorem mem_note_on_pairs (kmap : HMap) (track : Track) (pair : MidiKeyPair)
    (h : pair ∈ note_on_pairs kmap track) :
    pair.keyboard_key = kmap pair.midi_key := by
  rw [note_on_pairs, List.mem_filterMap] at h
  obtain ⟨note, -, hf⟩ := h
  obtain ⟨kind⟩ := note
  rcases kind with ⟨ch, message⟩ | _
  · rcases message with ⟨key, vel⟩ | ⟨program⟩ | _
    · simp only [Option.some.injEq] at hf
      rw [← hf]
    · simp at hf
    · simp at hf
  · simp at hf

/-- When a list has a last element, `lastD` returns it whatever the
default. -/
theorem lastD_eq_of_getLast? (l : List String) :
    ∀ d n : String, l.getLast? = some n → lastD l d = n := by
  induction l with
  | nil =>
    intro d n h
    simp at h
  | cons a l ih =>
    intro d n h
    cases l with
    | nil =>
      simp only [List.getLast?_singleton, Option.some.injEq] at h
      subst h
      rfl
    | cons b l =>
      rw [List.getLast?_cons_cons] at h
      exact ih a n h

/-- Claim C3 (confirmed): on a successfully read and parsed file,
`load_midi_file` replaces `midi_key_tracks` with exactly one `MidiKeyTrack`
per parsed track, in file order, and each entry records exactly the key
numbers of the NoteOn events of its track, in track order; no other event
kind contributes a pair. -/
theorem C3_tracks_record_note_on_keys (app : MyApp) (path : String) (smf : Smf) :
    (load_midi_file app path (Except.ok smf)).1.midi_key_tracks.length = smf.length ∧
    ∀ t : Nat,
      ((load_midi_file app path (Except.ok smf)).1.midi_key_tracks[t]?).map
          (fun mt => mt.midi_key_pairs.map MidiKeyPair.midi_key) =
        (smf[t]?).map note_on_keys := by
  rw [load_midi_file_ok_tracks]
  refine ⟨process_tracks_length _ _ smf 1, ?_⟩
  intro t
  have hp := process_tracks_pairs app.key_to_keyboard_mapping
    app.program_to_string_mapping smf 1 t
  cases h2 : smf[t]? with
  | none =>
    rw [h2] at hp
    cases h1 : (process_tracks app.key_to_keyboard_mapping
        app.program_to_string_mapping 1 smf)[t]? with
    | none => simp
    | some mt =>
      rw [h1] at hp
      simp at hp
  | some tr =>
    rw [h2] at hp
    cases h1 : (process_tracks app.key_to_keyboard_mapping
        app.program_to_string_mapping 1 smf)[t]? with
    | none =>
      rw [h1] at hp
      simp at hp
    | some mt =>
      rw [h1] at hp
      simp only [Option.map_some'] at hp ⊢
      rw [Option.some.injEq] at hp ⊢
      rw [hp, note_on_pairs_map_key]

/-- Claim C4 (confirmed): every recorded `MidiKeyPair` stores in
`keyboard_key` exactly the lookup of its key number in
`key_to_keyboard_mapping`: the mapped label when the key number is in the
domain, `none` otherwise. -/
theorem C4_keyboard_key_is_lookup (app : MyApp) (path : String) (smf : Smf)
    (t : Nat) (mt : MidiKeyTrack)
    (hmt : (load_midi_file app path (Except.ok smf)).1.midi_key_tracks[t]? = some mt)
    (pair : MidiKeyPair) (hpair : pair ∈ mt.midi_key_pairs) :
    pair.keyboard_key = app.key_to_keyboard_mapping pair.midi_key := by
  rw [load_midi_file_ok_tracks] at hmt
  have hp := process_tracks_pairs app.key_to_keyboard_mapping
    app.program_to_string_mapping smf 1 t
  rw [hmt] at hp
  cases h2 : smf[t]? with
  | none =>
    rw [h2] at hp
    simp at hp
  | some tr =>
    rw [h2] at hp
    simp only [Option.map_some', Option.some.injEq] at hp
    rw [hp] at hpair
    exact mem_note_on_pairs app.key_to_keyboard_mapping tr pair hpair

/-- Claim C7 (confirmed): after a successful load, a track with at least one
ProgramChange event whose program number is in `program_to_string_mapping`
is named with the instrument name of the last such event, and a track with
no such event is named `Channel n` where `n` is 1 plus the total number of
track events of any kind in all preceding tracks, because `channel_num` is
incremented once per event rather than once per track.  The hypothesis
`1 + prev_events smf t < U32_MOD` rules out wrap-around of the `u32`
counter. -/
theorem C7_track_naming (app : MyApp) (path : String) (smf : Smf)
    (t : Nat) (track : Track) (htr : smf[t]? = some track)
    (hsmall : 1 + prev_events smf t < U32_MOD) :
    ∃ mt, (load_midi_file app path (Except.ok smf)).1.midi_key_tracks[t]? = some mt ∧
      (known_program_names app.program_to_string_mapping track = [] →
        mt.name = "Channel " ++ toString (1 + prev_events smf t)) ∧
      (∀ n, (known_program_names app.program_to_string_mapping track).getLast? = some n →
        mt.name = n) := by
  rw [load_midi_file_ok_tracks]
  obtain ⟨mt, hmt, hname⟩ := process_tracks_name app.key_to_keyboard_mapping
    app.program_to_string_mapping smf 1 (by norm_num [U32_MOD]) t track htr
  refine ⟨mt, hmt, ?_, ?_⟩
  · intro hnil
    rw [hname, hnil, Nat.mod_eq_of_lt hsmall]
    rfl
  · intro n hn
    rw [hname]
    exact lastD_eq_of_getLast? _ _ n hn

set_option maxRecDepth 16384 in
/-- Claim C8 (confirmed): the default application state (base key "ESC" on
`default_planck_rows`) is constructed without reaching the panic, its
`key_to_keyboard_mapping` sends MIDI key 60 to "ESC" (flattened index 12),
and its domain is exactly the MIDI keys 48..=95; every NoteOn key number
outside 48..=95 is therefore looked up to `none`. -/
theorem C8_default_domain :
    ∃ app, MyApp.default = some app ∧
      app.key_to_keyboard_mapping MIDI_C_KEY = some "ESC" ∧
      ∀ k : Nat, (app.key_to_keyboard_mapping k).isSome = true ↔ (48 ≤ k ∧ k ≤ 95) := by
  have hfind : find_base_index "ESC" default_planck_rows = some 12 := by decide
  have hlen : (planck_keys default_planck_rows).length = 48 := by decide
  refine ⟨{ program_to_string_mapping := program_to_string,
            picked_midi_path := none,
            midi_key_tracks := [],
            key_to_keyboard_mapping :=
              build_mapping 12 0 (planck_keys default_planck_rows) HMap.empty },
    ?_, ?_, ?_⟩
  · unfold MyApp.default chromatic_planck_mapping
    rw [hfind]
    rfl
  · show build_mapping 12 0 (planck_keys default_planck_rows) HMap.empty MIDI_C_KEY =
      some "ESC"
    rw [build_mapping_lookup]
    simp only [MIDI_C_KEY]
    rw [hlen, if_pos ⟨by omega, by omega, by omega⟩]
    decide
  · intro k
    show (build_mapping 12 0 (planck_keys default_planck_rows) HMap.empty k).isSome =
      true ↔ 48 ≤ k ∧ k ≤ 95
    rw [build_mapping_lookup, hlen]
    by_cases h : 48 ≤ k ∧ k ≤ 95
    · rw [if_pos ⟨by omega, by omega, by omega⟩]
      constructor
      · intro _
        exact h
      · intro _
        rw [Option.isSome_iff_ne_none]
        intro hnone
        rw [List.getElem?_eq_none_iff, hlen] at hnone
        omega
    · rw [if_neg (by omega)]
      simp only [HMap.empty]
      simp
      omega

/-- Claim C9 (confirmed): when `load_midi_file` returns an error (the file
cannot be read or MIDI parsing fails), `midi_key_tracks` keeps the value it
had before the call, but `picked_midi_path` has already been set to the
failing path, so the state update is not fully rolled back. -/
theorem C9_error_keeps_tracks_sets_path (app : MyApp) (path : String)
    (parsed : Except LoadMidiFileError Smf) (e : LoadMidiFileError)
    (herr : (load_midi_file app path parsed).2 = Except.error e) :
    (load_midi_file app path parsed).1.midi_key_tracks = app.midi_key_tracks ∧
      (load_midi_file app path parsed).1.picked_midi_path = some path := by
  cases parsed with
  | error e2 => exact ⟨rfl, rfl⟩
  | ok smf => simp [load_midi_file] at herr

/-- Claim C10 (confirmed): `load_midi_file` never modifies the two lookup
tables `key_to_keyboard_mapping` and `program_to_string_mapping`, whether it
succeeds or fails. -/
theorem C10_lookup_tables_unchanged (app : MyApp) (path : String)
    (parsed : Except LoadMidiFileError Smf) :
    (load_midi_file app path parsed).1.key_to_keyboard_mapping =
        app.key_to_keyboard_mapping ∧
      (load_midi_file app path parsed).1.program_to_string_mapping =
        app.program_to_string_mapping := by
  cases parsed with
  | error e => exact ⟨rfl, rfl⟩
  | ok smf => exact ⟨rfl, rfl⟩

/-- A small concrete application state for the witnesses: one key binding
(MIDI key 60 to "ESC") and an empty instrument table. -/
def sample_app : MyApp :=
  { picked_midi_path := none,
    midi_key_tracks := [],
    key_to_keyboard_mapping := HMap.insert HMap.empty 60 "ESC",
    program_to_string_mapping := HMap.empty }

def sample_path : String := "song.mid"

/-- A small concrete parsed file for the witnesses: a first track with one
NoteOn event and one ignored event, then an empty second track. -/
def sample_smf : Smf :=
  [ [ { kind := TrackEventKind.midi 0 (MidiMessage.noteOn 60 100) },
      { kind := TrackEventKind.other } ],
    [] ]

def sample_pair : MidiKeyPair := { midi_key := 60, keyboard_key := some "ESC" }

def sample_track : MidiKeyTrack :=
  { name := "Channel 1", midi_key_pairs := [sample_pair] }

/-- Witness for C4_keyboard_key_is_lookup on the sample file. -/
theorem C4_keyboard_key_is_lookup_witness :
    (load_midi_file sample_app sample_path
        (Except.ok sample_smf)).1.midi_key_tracks[0]? = some sample_track ∧
    sample_pair ∈ sample_track.midi_key_pairs ∧
    sample_pair.keyboard_key = sample_app.key_to_keyboard_mapping sample_pair.midi_key :=
  ⟨by decide, by decide,
    C4_keyboard_key_is_lookup sample_app sample_path sample_smf 0 sample_track
      (by decide) sample_pair (by decide)⟩

/-- Witness for C7_track_naming on the sample file: the second track has no
ProgramChange event and is named `Channel 3`, since the first track holds 2
events. -/
theorem C7_track_naming_witness :
    sample_smf[1]? = some ([] : Track) ∧
    1 + prev_events sample_smf 1 < U32_MOD ∧
    ∃ mt, (load_midi_file sample_app sample_path
        (Except.ok sample_smf)).1.midi_key_tracks[1]? = some mt ∧
      (known_program_names sample_app.program_to_string_mapping [] = [] →
        mt.name = "Channel " ++ toString (1 + prev_events sample_smf 1)) ∧
      (∀ n, (known_program_names sample_app.program_to_string_mapping []).getLast? = some n →
        mt.name = n) :=
  ⟨by decide, by decide,
    C7_track_naming sample_app sample_path sample_smf 1 [] (by decide) (by decide)⟩

/-- Witness for C9_error_keeps_tracks_sets_path on a failing read. -/
theorem C9_error_keeps_tracks_sets_path_witness :
    (load_midi_file sample_app sample_path
        (Except.error LoadMidiFileError.IOError)).2 =
      Except.error LoadMidiFileError.IOError ∧
    (load_midi_file sample_app sample_path
        (Except.error LoadMidiFileError.IOError)).1.midi_key_tracks =
      sample_app.midi_key_tracks ∧
    (load_midi_file sample_app sample_path
        (Except.error LoadMidiFileError.IOError)).1.picked_midi_path =
      some sample_path :=
  ⟨rfl,
    C9_error_keeps_tracks_sets_path sample_app sample_path
      (Except.error LoadMidiFileError.IOError) LoadMidiFileError.IOError rfl⟩

end PlanckScribe
